import Mathlib

/-!
Verification of the file-backed mailbox store (`pkg/storage/file/fstore.go`).

The embedding models the parts of the store the properties below speak
about: the gob-encoded per-mailbox index stream, the sharded on-disk
layout, lazy index loading, message lookup and removal, directory
removal with ancestor pruning, and message-identifier generation.
-/

namespace Inbucket

/-- Message metadata, one entry of a mailbox index.  Fields are the ones
fstore.go reads and writes (Fid, Fdate, Ffrom, Fto, Fsize, Fsubject);
the `time.Time` arrival date is abstracted as a natural-number timestamp.
The `ID()` accessor used by `removeMessage` returns `Fid`. -/
structure Message where
  Fid : String
  Fdate : Nat
  Ffrom : String
  Fto : List String
  Fsize : Int
  Fsubject : String
deriving DecidableEq, Repr

/-- One record of a gob-encoded index file stream: a gob-encoded string,
a gob-encoded `Message`, or a malformed record on which decoding fails.
`io.EOF` is represented by the end of the record list. -/
inductive GobRecord where
  | str (s : String)
  | msg (m : Message)
  | corrupt
deriving DecidableEq, Repr

/-- Decoding a record into a string target (`dec.Decode(&name)`). -/
def decodeStr : GobRecord → Option String
  | GobRecord.str s => some s
  | _ => none

/-- Decoding a record into a `Message` target (`dec.Decode(msg)`). -/
def decodeMsg : GobRecord → Option Message
  | GobRecord.msg m => some m
  | _ => none

/-- Projection of the on-disk state touched by one mailbox: its index file
content (a gob record stream, or `none` when the file does not exist),
the raw message files in its directory, whether its level-3 directory
exists, and for each shard ancestor whether that directory exists and how
many entries it holds besides this mailbox's own chain. -/
structure FS where
  indexFile : Option (List GobRecord)
  rawFiles : List String
  mboxDir : Bool
  shard2Dir : Bool
  shard2Siblings : Nat
  shard1Dir : Bool
  shard1Siblings : Nat
deriving DecidableEq, Repr

/-- `os.Remove` of one raw message file named by its identifier. -/
def FS.removeRaw (fs : FS) (id : String) : FS :=
  { fs with rawFiles := fs.rawFiles.filter (fun f => f ≠ id) }

/-- In-memory mailbox handle state: mailbox name, the `indexLoaded` flag
and the ordered in-memory message sequence (`mbox` in fstore.go). -/
structure Mbox where
  name : String
  indexLoaded : Bool
  messages : List Message
deriving DecidableEq, Repr

/-- A freshly constructed mailbox handle, as returned by `Store.mbox`:
index not yet loaded, no in-memory messages. -/
def freshMbox (name : String) : Mbox :=
  { name := name, indexLoaded := false, messages := [] }

/-- `removeDirIfEmpty`: returns true when the directory exists and holds
no entries, in which case it is removed. -/
def removeDirIfEmpty (dirExists : Bool) (entries : Nat) : Bool :=
  dirExists && entries == 0

/-- `mbox.removeDir`: `os.RemoveAll` on the mailbox directory (deleting
the index file and every raw file), then prune the level-2 shard
directory if now empty, and only if that succeeded prune the level-1
shard directory under the same condition. -/
def removeDirFS (fs : FS) : FS :=
  let fs1 : FS := { fs with indexFile := none, rawFiles := [], mboxDir := false }
  if removeDirIfEmpty fs1.shard2Dir fs1.shard2Siblings then
    let fs2 : FS := { fs1 with shard2Dir := false }
    if removeDirIfEmpty fs2.shard1Dir fs2.shard1Siblings then
      { fs2 with shard1Dir := false }
    else fs2
  else fs1

/-- The gob stream `writeIndex` emits: the mailbox name header followed
by each message record in sequence order. -/
def encodeIndex (name : String) (msgs : List Message) : List GobRecord :=
  GobRecord.str name :: msgs.map GobRecord.msg

/-- `mbox.writeIndex`: when the in-memory sequence is non-empty, ensure
the 3-level directory path exists (`createDir` / `MkdirAll`) and write
the encoded stream to the index file; when it is empty, remove the
mailbox directory and prune ancestors instead. -/
def Mbox.writeIndex (mb : Mbox) (fs : FS) : FS :=
  if 0 < mb.messages.length then
    { fs with mboxDir := true, shard2Dir := true, shard1Dir := true,
              indexFile := some (encodeIndex mb.name mb.messages) }
  else
    removeDirFS fs

/-- The message-decoding loop of `readIndex`: decode records one at a
time, appending each decoded message, until the end of the stream
(success) or a record that fails to decode (failure). -/
def decodeLoop : Mbox → List GobRecord → Mbox × Bool
  | mb, [] => (mb, true)
  | mb, r :: rest =>
    match decodeMsg r with
    | some m => decodeLoop { mb with messages := mb.messages ++ [m] } rest
    | none => (mb, false)

/-- Error values surfaced by the mailbox operations modelled here. -/
inductive StoreErr where
  | notExist
  | corrupt
deriving DecidableEq, Repr

/-- `mbox.readIndex`: clear the message slice; a missing index file is
not an error (mark loaded, empty sequence); otherwise decode the name
header and then messages until end of stream.  Any decode failure
(including a header failure) yields a corruption error and leaves
`indexLoaded` untouched. -/
def Mbox.readIndex (mb : Mbox) (fs : FS) : Mbox × Option StoreErr :=
  match fs.indexFile with
  | none => ({ mb with messages := [], indexLoaded := true }, none)
  | some [] => ({ mb with messages := [] }, some StoreErr.corrupt)
  | some (r :: rest) =>
    match decodeStr r with
    | none => ({ mb with messages := [] }, some StoreErr.corrupt)
    | some nm =>
      match decodeLoop { mb with messages := [], name := nm } rest with
      | (mb3, true) => ({ mb3 with indexLoaded := true }, none)
      | (mb3, false) => (mb3, some StoreErr.corrupt)

/-- The lazy-load step shared by `getMessage`, `getMessages` and
`removeMessage`: read the index only when not already loaded. -/
def Mbox.ensureLoaded (mb : Mbox) (fs : FS) : Mbox × Option StoreErr :=
  if mb.indexLoaded then (mb, none) else mb.readIndex fs

/-- The linear scan `for _, m := range mb.messages` matching on `Fid`. -/
def findMsg : List Message → String → Option Message
  | [], _ => none
  | m :: rest, id => if m.Fid = id then some m else findMsg rest id

/-- `mbox.getMessage`: lazily load, serve the `"latest"` fast path when
the sequence is non-empty, otherwise scan by identifier; `ErrNotExist`
when nothing matches.  The filesystem is returned unchanged: the
operation performs no writes. -/
def Mbox.getMessage (mb : Mbox) (fs : FS) (id : String) :
    Mbox × FS × Except StoreErr Message :=
  match mb.ensureLoaded fs with
  | (mb2, some e) => (mb2, fs, Except.error e)
  | (mb2, none) =>
    if h : id = "latest" ∧ mb2.messages ≠ [] then
      (mb2, fs, Except.ok (mb2.messages.getLast h.2))
    else
      match findMsg mb2.messages id with
      | some m => (mb2, fs, Except.ok m)
      | none => (mb2, fs, Except.error StoreErr.notExist)

/-- `mbox.getMessages`: lazily load and return the full sequence. -/
def Mbox.getMessages (mb : Mbox) (fs : FS) : Mbox × Except StoreErr (List Message) :=
  match mb.ensureLoaded fs with
  | (mb2, some e) => (mb2, Except.error e)
  | (mb2, none) => (mb2, Except.ok mb2.messages)

/-- The removal scan of `removeMessage`: slice out the first entry whose
identifier matches, returning it and the remaining sequence. -/
def removeFirst : List Message → String → Option (Message × List Message)
  | [], _ => none
  | m :: rest, id =>
    if id = m.Fid then some (m, rest)
    else
      match removeFirst rest id with
      | some (found, rest2) => some (found, m :: rest2)
      | none => none

/-- `mbox.removeMessage`: lazily load; remove the first matching entry
(`ErrNotExist` when none matches); persist via `writeIndex`; when
messages remain, delete the removed message's raw file individually
(when none remain, `writeIndex` already removed the whole directory). -/
def Mbox.removeMessage (mb : Mbox) (fs : FS) (id : String) :
    Mbox × FS × Option StoreErr :=
  match mb.ensureLoaded fs with
  | (mb2, some e) => (mb2, fs, some e)
  | (mb2, none) =>
    match removeFirst mb2.messages id with
    | none => (mb2, fs, some StoreErr.notExist)
    | some (msg, rest) =>
      let mb3 : Mbox := { mb2 with messages := rest }
      let fs2 := mb3.writeIndex fs
      if rest.length = 0 then (mb3, fs2, none)
      else (mb3, FS.removeRaw fs2 msg.Fid, none)

/-- Count of message records in a gob stream. -/
def msgRecordCount : List GobRecord → Nat
  | [] => 0
  | GobRecord.msg _ :: rest => msgRecordCount rest + 1
  | _ :: rest => msgRecordCount rest

/-- Name of the index file in each mailbox (`indexFileName`). -/
def indexFileName : String := "index.gob"

/-- `filepath.Join` on two clean, slash-free, non-empty components. -/
def filepathJoin (a b : String) : String := a ++ "/" ++ b

/-- The mailbox directory computed by `Store.mbox`:
`mailPath/dir[0:3]/dir[0:6]/dir` for the hash token `dir`. -/
def mboxPath (mailPath dir : String) : String :=
  filepathJoin (filepathJoin (filepathJoin mailPath (dir.take 3)) (dir.take 6)) dir

/-- The index path computed by `Store.mbox`: the index file name joined
under the mailbox directory. -/
def mboxIndexPath (mailPath dir : String) : String :=
  filepathJoin (mboxPath mailPath dir) indexFileName

/-- The state of `countGenerator`'s loop variable after n sends: it
starts at 0 and each send is followed by `i = (i + 1) % 10000`. -/
def countGenState : Nat → Nat
  | 0 => 0
  | n + 1 => (countGenState n + 1) % 10000

/-- A wall-clock time at second resolution, the data `time.Time` formats
through the layout `"20060102T150405"`. -/
structure DateTime where
  year : Nat
  month : Nat
  day : Nat
  hour : Nat
  minute : Nat
  second : Nat
deriving DecidableEq, Repr

/-- Decimal digit characters of n, most significant first, with explicit
recursion fuel (each step strips the last digit). -/
def decCharsAux : Nat → Nat → List Char
  | 0, _ => []
  | fuel + 1, n =>
    if n < 10 then [Nat.digitChar n]
    else decCharsAux fuel (n / 10) ++ [Nat.digitChar (n % 10)]

/-- Decimal digit characters of n; fuel 24 suffices for every value
representable in Go's integer types (all n below 10^24). -/
def decChars (n : Nat) : List Char := decCharsAux 24 n

/-- Decimal string rendering of a natural number, as Go's integer
formatting produces it. -/
def decStr (n : Nat) : String := String.mk (decChars n)

/-- Two-digit zero-padded decimal (the `01`/`02`/`15`/`04`/`05` layout
fields). -/
def pad2 (n : Nat) : String :=
  if n < 10 then "0" ++ decStr n else decStr n

/-- Four-digit zero-padded decimal (the `2006` layout field and
`fmt.Sprintf` with the `%04d` verb). -/
def pad4 (n : Nat) : String :=
  if n < 10 then "000" ++ decStr n
  else if n < 100 then "00" ++ decStr n
  else if n < 1000 then "0" ++ decStr n
  else decStr n

/-- `generatePrefix`: the arrival time formatted with layout
`"20060102T150405"`. -/
def generatePrefix (d : DateTime) : String :=
  pad4 d.year ++ pad2 d.month ++ pad2 d.day ++ "T" ++
    pad2 d.hour ++ pad2 d.minute ++ pad2 d.second

/-- `generateID`: the prefix, a hyphen, and the 4-digit zero-padded
sequence value drawn from the generator channel. -/
def generateID (d : DateTime) (seq : Nat) : String :=
  generatePrefix d ++ "-" ++ pad4 seq

/-- Concrete fixture: a first stored message. -/
def msgA : Message :=
  { Fid := "20261011T120000-0000", Fdate := 100, Ffrom := "a@x.com",
    Fto := ["b@y.com"], Fsize := 10, Fsubject := "hi" }

/-- Concrete fixture: a second stored message. -/
def msgB : Message :=
  { Fid := "20261011T120000-0001", Fdate := 101, Ffrom := "c@x.com",
    Fto := ["b@y.com"], Fsize := 20, Fsubject := "re" }

/-- Concrete fixture: a loaded mailbox holding two messages. -/
def mbA : Mbox :=
  { name := "bob@example.com", indexLoaded := true, messages := [msgA, msgB] }

/-- Concrete fixture: a loaded mailbox with no messages. -/
def mbEmptyLoaded : Mbox :=
  { name := "bob@example.com", indexLoaded := true, messages := [] }

/-- Concrete fixture: on-disk state of a never-written mailbox. -/
def fsEmpty : FS :=
  { indexFile := none, rawFiles := [], mboxDir := false,
    shard2Dir := false, shard2Siblings := 0, shard1Dir := false,
    shard1Siblings := 0 }

/-- Concrete fixture: on-disk state holding a well-formed two-message
index, with no sibling entries in either shard directory. -/
def fsFull : FS :=
  { indexFile := some (encodeIndex "bob@example.com" [msgA, msgB]),
    rawFiles := ["20261011T120000-0000", "20261011T120000-0001"],
    mboxDir := true, shard2Dir := true, shard2Siblings := 0,
    shard1Dir := true, shard1Siblings := 0 }

/-- Concrete fixture: on-disk state whose index stream has a malformed
third record. -/
def fsBadIndex : FS :=
  { indexFile := some [GobRecord.str "bob@example.com", GobRecord.msg msgA,
      GobRecord.corrupt],
    rawFiles := ["20261011T120000-0000"], mboxDir := true,
    shard2Dir := true, shard2Siblings := 0, shard1Dir := true,
    shard1Siblings := 0 }

/-! ### Helper lemmas -/

theorem decCharsAux_length (fuel : Nat) : ∀ e n, n < 10 ^ fuel → n < 10 ^ (e + 1) →
    10 ^ e ≤ n → (decCharsAux fuel n).length = e + 1 := by
  induction fuel with
  | zero => intro e n h1 _ h3; simp at h1; omega
  | succ fuel ih =>
    intro e n h1 h2 h3
    by_cases hn : n < 10
    · have he : e = 0 := by
        by_contra h
        have h10 : (10 : Nat) ^ 1 ≤ 10 ^ e := Nat.pow_le_pow_right (by omega) (by omega)
        simp at h10; omega
      simp [decCharsAux, hn, he]
    · match e with
      | 0 => simp at h2; omega
      | e + 1 =>
        have hd1 : n / 10 < 10 ^ fuel := by
          rw [Nat.div_lt_iff_lt_mul (by omega)]
          calc n < 10 ^ (fuel + 1) := h1
          _ = 10 ^ fuel * 10 := by ring
        have hd2 : n / 10 < 10 ^ (e + 1) := by
          rw [Nat.div_lt_iff_lt_mul (by omega)]
          calc n < 10 ^ (e + 1 + 1) := h2
          _ = 10 ^ (e + 1) * 10 := by ring
        have hd3 : 10 ^ e ≤ n / 10 := by
          rw [Nat.le_div_iff_mul_le (by omega)]
          calc 10 ^ e * 10 = 10 ^ (e + 1) := by ring
          _ ≤ n := h3
        simp [decCharsAux, hn, ih e (n / 10) hd1 hd2 hd3]

theorem decStr_length (n : Nat) (h : n < 10000) :
    (decStr n).length =
      (if n < 10 then 1 else if n < 100 then 2 else if n < 1000 then 3 else 4) := by
  rcases Nat.eq_zero_or_pos n with h0 | h0
  · subst h0; rfl
  by_cases ha : n < 10
  · have := decCharsAux_length 24 0 n (by norm_num; omega) (by norm_num; omega)
      (by norm_num; omega)
    simp [decStr, decChars, ha, this]
  by_cases hb : n < 100
  · have := decCharsAux_length 24 1 n (by norm_num; omega) (by norm_num; omega)
      (by norm_num; omega)
    simp [decStr, decChars, ha, hb, this]
  by_cases hc : n < 1000
  · have := decCharsAux_length 24 2 n (by norm_num; omega) (by norm_num; omega)
      (by norm_num; omega)
    simp [decStr, decChars, ha, hb, hc, this]
  · have := decCharsAux_length 24 3 n (by norm_num; omega) (by norm_num; omega)
      (by norm_num; omega)
    simp [decStr, decChars, ha, hb, hc, this]

theorem pad2_length (n : Nat) (h : n < 100) : (pad2 n).length = 2 := by
  unfold pad2
  have := decStr_length n (by omega)
  split
  · simp_all [String.length_append]; rfl
  · simp_all

theorem pad4_length (n : Nat) (h : n < 10000) : (pad4 n).length = 4 := by
  unfold pad4
  have := decStr_length n (by omega)
  split
  · simp_all [String.length_append]; rfl
  split
  · simp_all [String.length_append]; rfl
  split
  · simp_all [String.length_append]; rfl
  · simp_all

theorem countGen_mod (n : Nat) : countGenState n = n % 10000 := by
  induction n with
  | zero => rfl
  | succ n ih => rw [countGenState, ih]; omega

theorem decodeLoop_msgs (l : List Message) : ∀ mb : Mbox,
    decodeLoop mb (l.map GobRecord.msg) =
      ({ mb with messages := mb.messages ++ l }, true) := by
  induction l with
  | nil => intro mb; simp [decodeLoop]
  | cons m rest ih => intro mb; simp [decodeLoop, decodeMsg, ih]

theorem decodeLoop_loaded (l : List GobRecord) : ∀ mb : Mbox,
    (decodeLoop mb l).1.indexLoaded = mb.indexLoaded := by
  induction l with
  | nil => intro mb; rfl
  | cons r rest ih =>
    intro mb
    cases hr : decodeMsg r with
    | some m => simp [decodeLoop, hr, ih]
    | none => simp [decodeLoop, hr]

theorem removeFirst_of_none (id : String) : ∀ l : List Message,
    (∀ m ∈ l, m.Fid ≠ id) → removeFirst l id = none := by
  intro l
  induction l with
  | nil => intro _; rfl
  | cons a rest ih =>
    intro h
    have hne : ¬(id = a.Fid) := fun heq => (h a (by simp)) heq.symm
    simp [removeFirst, hne, ih (fun m hm => h m (by simp [hm]))]

theorem removeFirst_first_match (id : String) (m : Message) (hm : m.Fid = id) :
    ∀ pre post : List Message, (∀ x ∈ pre, x.Fid ≠ id) →
    removeFirst (pre ++ m :: post) id = some (m, pre ++ post) := by
  intro pre
  induction pre with
  | nil => intro post _; simp [removeFirst, hm.symm]
  | cons a rest ih =>
    intro post h
    have hne : ¬(id = a.Fid) := fun heq => (h a (by simp)) heq.symm
    simp [removeFirst, hne, ih post (fun x hx => h x (by simp [hx]))]

theorem removeDirFS_spec (fs : FS) :
    (removeDirFS fs).indexFile = none ∧ (removeDirFS fs).rawFiles = [] ∧
    (removeDirFS fs).mboxDir = false ∧
    (fs.shard2Siblings = 0 → (removeDirFS fs).shard2Dir = false) ∧
    (fs.shard2Dir = true → fs.shard2Siblings = 0 → fs.shard1Siblings = 0 →
      (removeDirFS fs).shard1Dir = false) := by
  unfold removeDirFS removeDirIfEmpty
  by_cases h2 : fs.shard2Dir <;> by_cases hs2 : fs.shard2Siblings = 0 <;>
    by_cases h1 : fs.shard1Dir <;> by_cases hs1 : fs.shard1Siblings = 0 <;>
      simp [h2, hs2, h1, hs1]

theorem msgRecordCount_map (l : List Message) :
    msgRecordCount (l.map GobRecord.msg) = l.length := by
  induction l with
  | nil => rfl
  | cons m rest ih => simp [msgRecordCount, ih]

/-! ### Claims -/

/-- C3 counterexample: for a concrete token, the resolved index path ends
in the file name index.gob, not index, so the index file is not stored
under the fixed file name index. -/
theorem mbox_layout_counterexample :
    mboxIndexPath "data/mail" "1a2b3c4d5e" =
      "data/mail/1a2/1a2b3c/1a2b3c4d5e/index.gob" ∧
    mboxIndexPath "data/mail" "1a2b3c4d5e" ≠
      "data/mail/1a2/1a2b3c/1a2b3c4d5e/index" := by
  constructor
  · rfl
  · decide

/-- C3 (amended): resolving a mailbox yields the on-disk layout
base/mail/token[0:3]/token[0:6]/token, with the per-mailbox index file
stored inside the level-3 directory under the fixed file name index.gob. -/
theorem mbox_layout_resolved (mailPath dir : String) :
    mboxPath mailPath dir =
      mailPath ++ "/" ++ dir.take 3 ++ "/" ++ dir.take 6 ++ "/" ++ dir ∧
    mboxIndexPath mailPath dir = mboxPath mailPath dir ++ "/" ++ "index.gob" ∧
    indexFileName = "index.gob" :=
  ⟨rfl, rfl, rfl⟩

/-- C6: the sequence-number generator produces 0, 1, 2, ... wrapping
modulo 10000, so two issuances carrying the same sequence value are at
least 10000 issuances apart. -/
theorem countGen_spacing (n i j : Nat) (hij : i < j)
    (hsame : countGenState i = countGenState j) :
    countGenState n = n % 10000 ∧ 10000 ≤ j - i := by
  have hi := countGen_mod i
  have hj := countGen_mod j
  exact ⟨countGen_mod n, by rw [hi, hj] at hsame; omega⟩

theorem countGen_spacing_witness :
    (3 < 10003 ∧ countGenState 3 = countGenState 10003) ∧
      countGenState 5 = 5 % 10000 ∧ 10000 ≤ 10003 - 3 := by
  have hsame : countGenState 3 = countGenState 10003 := by
    rw [countGen_mod, countGen_mod]
  exact ⟨⟨by omega, hsame⟩, countGen_spacing 5 3 10003 (by omega) hsame⟩

/-- C7 counterexample: at a concrete arrival time the timestamp prefix of
the generated identifier is 15 characters, not 14, and the identifier is
20 characters in total. -/
theorem generateID_fourteen_counterexample :
    ( generatePrefix ⟨2026, 10, 11, 12, 0, 0⟩).length = 15 ∧
    ( generatePrefix ⟨2026, 10, 11, 12, 0, 0⟩).length ≠ 14 ∧
    generateID ⟨2026, 10, 11, 12, 0, 0⟩ 1 = "20261011T120000-0001" := by
  refine ⟨rfl, by decide, rfl⟩

/-- C7 (amended): for every arrival time with in-range calendar fields
and every issued sequence value, the identifier is the 15-character
timestamp YYYYMMDDTHHMMSS, a hyphen, and the 4-digit zero-padded
sequence number, 20 characters in total. -/
theorem generateID_format (d : DateTime) (seq : Nat)
    (hy : d.year < 10000) (hmo : d.month < 100) (hd : d.day < 100)
    (hh : d.hour < 100) (hmi : d.minute < 100) (hs : d.second < 100)
    (hseq : seq < 10000) :
    generateID d seq = generatePrefix d ++ "-" ++ pad4 seq ∧
    ( generatePrefix d).length = 15 ∧
    (pad4 seq).length = 4 ∧
    ( generateID d seq).length = 20 := by
  have hp : ( generatePrefix d).length = 15 := by
    simp [ generatePrefix, String.length_append, pad4_length _ hy,
      pad2_length _ hmo, pad2_length _ hd, pad2_length _ hh,
      pad2_length _ hmi, pad2_length _ hs]
    rfl
  refine ⟨rfl, hp, pad4_length seq hseq, ?_⟩
  simp [ generateID, String.length_append, hp, pad4_length seq hseq]
  rfl

/-- C1: persisting a mailbox with a non-empty in-memory message sequence
via writeIndex and loading it back through readIndex on a fresh handle
succeeds and yields exactly the persisted message sequence, in order and
in every field, together with the persisted mailbox name. -/
theorem writeIndex_readIndex_roundtrip (mb : Mbox) (fs : FS) (name2 : String)
    (h : mb.messages ≠ []) :
    (Mbox.readIndex (freshMbox name2) (Mbox.writeIndex mb fs)).2 = none ∧
    (Mbox.readIndex (freshMbox name2) (Mbox.writeIndex mb fs)).1.messages =
      mb.messages ∧
    (Mbox.readIndex (freshMbox name2) (Mbox.writeIndex mb fs)).1.name = mb.name ∧
    (Mbox.readIndex (freshMbox name2) (Mbox.writeIndex mb fs)).1.indexLoaded =
      true := by
  have hlen : 0 < mb.messages.length := List.length_pos.mpr h
  rw [Mbox.writeIndex, if_pos hlen]
  rcases hm : mb.messages with _ | ⟨m0, mrest⟩
  · exact absurd hm h
  simp [Mbox.readIndex, encodeIndex, decodeStr, decodeLoop, decodeMsg, hm,
    decodeLoop_msgs, freshMbox]

theorem writeIndex_readIndex_roundtrip_witness :
    (mbA.messages ≠ []) ∧
    ((Mbox.readIndex (freshMbox "x") (Mbox.writeIndex mbA fsEmpty)).2 = none ∧
     (Mbox.readIndex (freshMbox "x") (Mbox.writeIndex mbA fsEmpty)).1.messages =
       mbA.messages ∧
     (Mbox.readIndex (freshMbox "x") (Mbox.writeIndex mbA fsEmpty)).1.name =
       mbA.name ∧
     (Mbox.readIndex (freshMbox "x") (Mbox.writeIndex mbA fsEmpty)).1.indexLoaded =
       true) :=
  ⟨by decide, writeIndex_readIndex_roundtrip mbA fsEmpty "x" (by decide)⟩

/-- C2: persisting a mailbox whose in-memory sequence is empty deletes
the mailbox directory (and prunes now-empty shard ancestors; the level-1
shard is pruned when the level-2 shard was) instead of writing an index
file, and writeIndex never produces an index file with zero message
records. -/
theorem writeIndex_empty_removes_mailbox (mb mb2 : Mbox) (fs fs2 : FS)
    (c : List GobRecord) (h : mb.messages = []) :
    Mbox.writeIndex mb fs = removeDirFS fs ∧
    (Mbox.writeIndex mb fs).indexFile = none ∧
    (Mbox.writeIndex mb fs).mboxDir = false ∧
    (fs.shard2Siblings = 0 → (Mbox.writeIndex mb fs).shard2Dir = false) ∧
    (fs.shard2Dir = true → fs.shard2Siblings = 0 → fs.shard1Siblings = 0 →
      (Mbox.writeIndex mb fs).shard1Dir = false) ∧
    ((Mbox.writeIndex mb2 fs2).indexFile = some c → 0 < msgRecordCount c) := by
  have hlen : ¬0 < mb.messages.length := by simp [h]
  have heq : Mbox.writeIndex mb fs = removeDirFS fs := by
    rw [Mbox.writeIndex, if_neg hlen]
  refine ⟨heq, ?_⟩
  rw [heq]
  obtain ⟨hif, _, hmd, hs2, hs1⟩ := removeDirFS_spec fs
  refine ⟨hif, hmd, hs2, hs1, ?_⟩
  intro hsome
  by_cases hl : 0 < mb2.messages.length
  · rw [Mbox.writeIndex, if_pos hl] at hsome
    simp only [Option.some.injEq] at hsome
    rw [← hsome]
    simp [encodeIndex, msgRecordCount, msgRecordCount_map, hl]
  · rw [Mbox.writeIndex, if_neg hl, (removeDirFS_spec fs2).1] at hsome
    exact absurd hsome (by simp)

theorem writeIndex_empty_removes_mailbox_witness :
    (mbEmptyLoaded.messages = []) ∧
    (Mbox.writeIndex mbEmptyLoaded fsFull = removeDirFS fsFull ∧
     (Mbox.writeIndex mbEmptyLoaded fsFull).indexFile = none ∧
     (Mbox.writeIndex mbEmptyLoaded fsFull).mboxDir = false ∧
     (fsFull.shard2Siblings = 0 →
       (Mbox.writeIndex mbEmptyLoaded fsFull).shard2Dir = false) ∧
     (fsFull.shard2Dir = true → fsFull.shard2Siblings = 0 →
       fsFull.shard1Siblings = 0 →
       (Mbox.writeIndex mbEmptyLoaded fsFull).shard1Dir = false) ∧
     ((Mbox.writeIndex mbA fsEmpty).indexFile =
         some (encodeIndex mbA.name mbA.messages) →
       0 < msgRecordCount (encodeIndex mbA.name mbA.messages))) :=
  ⟨by decide, writeIndex_empty_removes_mailbox mbEmptyLoaded mbA fsFull fsEmpty
    (encodeIndex mbA.name mbA.messages) (by decide)⟩

/-- C4: when loading the index hits a decode failure, readIndex returns
a corruption error, the loaded flag stays false (so the next access
re-reads the index from disk), and getMessages delivers no partially
decoded messages to the caller, only the corruption error. -/
theorem readIndex_corruption (mb : Mbox) (fs : FS)
    (hload : mb.indexLoaded = false)
    (herr : (Mbox.readIndex mb fs).2 ≠ none) :
    (Mbox.readIndex mb fs).2 = some StoreErr.corrupt ∧
    (Mbox.readIndex mb fs).1.indexLoaded = false ∧
    (Mbox.getMessages mb fs).2 = Except.error StoreErr.corrupt := by
  have hmain : (Mbox.readIndex mb fs).2 = some StoreErr.corrupt ∧
      (Mbox.readIndex mb fs).1.indexLoaded = false := by
    unfold Mbox.readIndex at herr ⊢
    cases hf : fs.indexFile with
    | none => simp [hf] at herr
    | some records =>
      cases records with
      | nil => simp [hload]
      | cons r rest =>
        cases hs : decodeStr r with
        | none => simp [hs, hload]
        | some nm =>
          rcases hdl : decodeLoop { mb with messages := [], name := nm } rest
            with ⟨mb3, ok⟩
          cases ok with
          | true => rw [hf] at herr; simp [hs, hdl] at herr
          | false =>
            have hL := decodeLoop_loaded rest { mb with messages := [], name := nm }
            rw [hdl] at hL
            simp [hs, hdl]
            simpa [hload] using hL
  refine ⟨hmain.1, hmain.2, ?_⟩
  unfold Mbox.getMessages Mbox.ensureLoaded
  rw [hload]
  have h1 := hmain.1
  rcases hR : Mbox.readIndex mb fs with ⟨mbr, err⟩
  rw [hR] at h1
  simp only at h1
  rw [h1]
  simp

theorem readIndex_corruption_witness :
    ((freshMbox "bob@example.com").indexLoaded = false ∧
      (Mbox.readIndex (freshMbox "bob@example.com") fsBadIndex).2 ≠ none) ∧
    ((Mbox.readIndex (freshMbox "bob@example.com") fsBadIndex).2 =
        some StoreErr.corrupt ∧
     (Mbox.readIndex (freshMbox "bob@example.com") fsBadIndex).1.indexLoaded =
        false ∧
     (Mbox.getMessages (freshMbox "bob@example.com") fsBadIndex).2 =
        Except.error StoreErr.corrupt) :=
  ⟨⟨by decide, by decide⟩,
    readIndex_corruption (freshMbox "bob@example.com") fsBadIndex (by decide)
      (by decide)⟩

theorem generateID_format_witness :
    (2026 < 10000 ∧ 10 < 100 ∧ 11 < 100 ∧ 12 < 100 ∧ 0 < 100 ∧ 0 < 100 ∧
      205 < 10000) ∧
    (generateID ⟨2026, 10, 11, 12, 0, 0⟩ 205 =
        generatePrefix ⟨2026, 10, 11, 12, 0, 0⟩ ++ "-" ++ pad4 205 ∧
      ( generatePrefix (⟨2026, 10, 11, 12, 0, 0⟩ : DateTime)).length = 15 ∧
      (pad4 205).length = 4 ∧
      ( generateID ⟨2026, 10, 11, 12, 0, 0⟩ 205).length = 20) :=
  ⟨by omega,
    generateID_format ⟨2026, 10, 11, 12, 0, 0⟩ 205 (by decide) (by decide)
      (by decide) (by decide) (by decide) (by decide) (by decide)⟩

/-- C5: on a loaded mailbox, removeMessage removes exactly the first
entry whose identifier matches, preserving the relative order of the
remaining entries, and persists the updated index; when no entry matches
it returns a not-found error and changes nothing. -/
theorem removeMessage_spec (mb : Mbox) (fs : FS) (id : String)
    (m : Message) (pre post : List Message) (hl : mb.indexLoaded = true) :
    ((∀ x ∈ mb.messages, x.Fid ≠ id) →
      Mbox.removeMessage mb fs id = (mb, fs, some StoreErr.notExist)) ∧
    (mb.messages = pre ++ m :: post → m.Fid = id → (∀ x ∈ pre, x.Fid ≠ id) →
      (Mbox.removeMessage mb fs id).1 = { mb with messages := pre ++ post } ∧
      (Mbox.removeMessage mb fs id).2.2 = none ∧
      (Mbox.removeMessage mb fs id).2.1 =
        (if (pre ++ post).length = 0 then
          Mbox.writeIndex { mb with messages := pre ++ post } fs
        else
          FS.removeRaw (Mbox.writeIndex { mb with messages := pre ++ post } fs)
            m.Fid) ∧
      (pre ++ post = [] →
        (Mbox.removeMessage mb fs id).2.1.indexFile = none) ∧
      (pre ++ post ≠ [] →
        (Mbox.removeMessage mb fs id).2.1.indexFile =
          some (encodeIndex mb.name (pre ++ post)))) := by
  constructor
  · intro hnone
    unfold Mbox.removeMessage Mbox.ensureLoaded
    simp [hl, removeFirst_of_none id mb.messages hnone]
  · intro hsplit hmid hpre
    have hrf : removeFirst mb.messages id = some (m, pre ++ post) := by
      rw [hsplit]; exact removeFirst_first_match id m hmid pre post hpre
    have hred : Mbox.removeMessage mb fs id =
        if (pre ++ post).length = 0 then
          ({ mb with messages := pre ++ post },
            Mbox.writeIndex { mb with messages := pre ++ post } fs, none)
        else
          ({ mb with messages := pre ++ post },
            FS.removeRaw (Mbox.writeIndex { mb with messages := pre ++ post } fs)
              m.Fid, none) := by
      unfold Mbox.removeMessage Mbox.ensureLoaded
      simp [hl, hrf]
    by_cases hz : (pre ++ post).length = 0
    · have hnil : pre ++ post = [] := List.length_eq_zero.mp hz
      rw [hred, if_pos hz]
      refine ⟨rfl, rfl, by rw [if_pos hz], ?_, ?_⟩
      · intro _
        show (Mbox.writeIndex { mb with messages := pre ++ post } fs).indexFile =
          none
        have hw : Mbox.writeIndex { mb with messages := pre ++ post } fs =
            removeDirFS fs := by
          rw [Mbox.writeIndex, if_neg (by simp [hnil])]
        rw [hw]
        exact (removeDirFS_spec fs).1
      · intro hne; exact absurd hnil hne
    · have hpos : 0 < (pre ++ post).length := Nat.pos_of_ne_zero hz
      rw [hred, if_neg hz]
      refine ⟨rfl, rfl, by rw [if_neg hz], ?_, ?_⟩
      · intro habs; exact absurd (by simp [habs]) hz
      · intro _
        show (FS.removeRaw
          (Mbox.writeIndex { mb with messages := pre ++ post } fs) m.Fid).indexFile =
            some (encodeIndex mb.name (pre ++ post))
        have hor : 0 < pre.length ∨ 0 < post.length := by
          rcases pre with _ | _ <;> rcases post with _ | _ <;> simp_all
        simp [FS.removeRaw, Mbox.writeIndex, hpos, encodeIndex, hor]

theorem removeMessage_spec_witness :
    (mbA.indexLoaded = true) ∧
    (((∀ x ∈ mbA.messages, x.Fid ≠ "20261011T120000-0000") →
        Mbox.removeMessage mbA fsFull "20261011T120000-0000" =
          (mbA, fsFull, some StoreErr.notExist)) ∧
     (mbA.messages = [] ++ msgA :: [msgB] →
       msgA.Fid = "20261011T120000-0000" →
       (∀ x ∈ ([] : List Message), x.Fid ≠ "20261011T120000-0000") →
       (Mbox.removeMessage mbA fsFull "20261011T120000-0000").1 =
         { mbA with messages := [] ++ [msgB] } ∧
       (Mbox.removeMessage mbA fsFull "20261011T120000-0000").2.2 = none ∧
       (Mbox.removeMessage mbA fsFull "20261011T120000-0000").2.1 =
         (if (([] : List Message) ++ [msgB]).length = 0 then
           Mbox.writeIndex { mbA with messages := [] ++ [msgB] } fsFull
         else
           FS.removeRaw
             (Mbox.writeIndex { mbA with messages := [] ++ [msgB] } fsFull)
             msgA.Fid) ∧
       (([] : List Message) ++ [msgB] = [] →
         (Mbox.removeMessage mbA fsFull
           "20261011T120000-0000").2.1.indexFile = none) ∧
       (([] : List Message) ++ [msgB] ≠ [] →
         (Mbox.removeMessage mbA fsFull
           "20261011T120000-0000").2.1.indexFile =
           some (encodeIndex mbA.name ([] ++ [msgB]))))) :=
  ⟨rfl, removeMessage_spec mbA fsFull "20261011T120000-0000" msgA [] [msgB] rfl⟩

/-- C8: on a loaded mailbox with a non-empty sequence, getMessage with
the special identifier latest returns the last element of the in-memory
sequence and leaves the mailbox state unchanged. -/
theorem getMessage_latest (mb : Mbox) (fs : FS) (hl : mb.indexLoaded = true)
    (h : mb.messages ≠ []) :
    (Mbox.getMessage mb fs "latest").2.2 = Except.ok (mb.messages.getLast h) ∧
    (Mbox.getMessage mb fs "latest").1 = mb := by
  unfold Mbox.getMessage Mbox.ensureLoaded
  simp [hl, h]

theorem getMessage_latest_witness :
    (mbA.indexLoaded = true ∧ mbA.messages ≠ []) ∧
    (Mbox.getMessage mbA fsFull "latest").2.2 = Except.ok msgB ∧
    (Mbox.getMessage mbA fsFull "latest").1 = mbA := by
  have h := getMessage_latest mbA fsFull rfl (by decide)
  have hlast : mbA.messages.getLast (by decide) = msgB := by decide
  exact ⟨⟨rfl, by decide⟩, h.1.trans (congrArg Except.ok hlast), h.2⟩

/-- C9: a Get on a mailbox never written to (no index file on disk)
returns not-found for every identifier and leaves the filesystem
untouched: no directory and no index file is created. -/
theorem getMessage_fresh_mailbox (name id : String) (fs : FS)
    (h : fs.indexFile = none) :
    (Mbox.getMessage (freshMbox name) fs id).2.2 =
      Except.error StoreErr.notExist ∧
    (Mbox.getMessage (freshMbox name) fs id).2.1 = fs := by
  unfold Mbox.getMessage Mbox.ensureLoaded Mbox.readIndex freshMbox
  simp [h, findMsg]

theorem getMessage_fresh_mailbox_witness :
    (fsEmpty.indexFile = none) ∧
    ((Mbox.getMessage (freshMbox "bob@example.com") fsEmpty "latest").2.2 =
        Except.error StoreErr.notExist ∧
     (Mbox.getMessage (freshMbox "bob@example.com") fsEmpty "latest").2.1 =
        fsEmpty) :=
  ⟨rfl, getMessage_fresh_mailbox "bob@example.com" "latest" fsEmpty rfl⟩

/-- C10: on a loaded mailbox whose sequence is empty, getMessage with the
identifier latest takes no special path: it returns the same ordinary
not-found error as any other absent identifier. -/
theorem getMessage_latest_empty (mb : Mbox) (fs : FS) (id : String)
    (hl : mb.indexLoaded = true) (h : mb.messages = []) :
    (Mbox.getMessage mb fs "latest").2.2 = Except.error StoreErr.notExist ∧
    (Mbox.getMessage mb fs id).2.2 = Except.error StoreErr.notExist := by
  unfold Mbox.getMessage Mbox.ensureLoaded
  simp [hl, h, findMsg]

theorem getMessage_latest_empty_witness :
    (mbEmptyLoaded.indexLoaded = true ∧ mbEmptyLoaded.messages = []) ∧
    ((Mbox.getMessage mbEmptyLoaded fsEmpty "latest").2.2 =
        Except.error StoreErr.notExist ∧
     (Mbox.getMessage mbEmptyLoaded fsEmpty "someid").2.2 =
        Except.error StoreErr.notExist) :=
  ⟨⟨rfl, rfl⟩, getMessage_latest_empty mbEmptyLoaded fsEmpty "someid" rfl rfl⟩

end Inbucket
